import Mathlib

/-!
Shallow embedding of `src/aws/code/workflows/MLWorkflowMultiGPU.py`
(class `MLWorkflowMultiGPU`), a multi-GPU HPO trial pipeline.

External library effects (cluster spawning, dask file reads, xgboost and
cuml training and inference, accuracy computation, model-file writes) are
modelled symbolically: reads and writes become explicit events in the
return values, externally produced numbers (the CUDA device count, raw
prediction vectors, accuracy scores) become oracle parameters, and the
Python runtime errors the code can raise (UnboundLocalError on the
never-assigned local of an unmatched branch, ZeroDivisionError in the
final average) become values of `PyErr` through `Except`.  Scores and
predictions are rationals.
-/

/-- The Python runtime errors this workflow can raise. -/
inductive PyErr where
  | unboundLocal
  | zeroDivision
  deriving DecidableEq, Repr

/-- Decidable equality for `Except` results, so concrete runs of the
fallible stages can be checked by evaluation. -/
instance {ε α : Type} [DecidableEq ε] [DecidableEq α] : DecidableEq (Except ε α) := fun a b =>
  match a, b with
  | .ok x, .ok y =>
    if h : x = y then isTrue (by rw [h]) else isFalse (by intro hc; cases hc; exact h rfl)
  | .error x, .error y =>
    if h : x = y then isTrue (by rw [h]) else isFalse (by intro hc; cases hc; exact h rfl)
  | .ok _, .error _ => isFalse (by intro hc; cases hc)
  | .error _, .ok _ => isFalse (by intro hc; cases hc)

/-- Embedding of the Python expression `tag in s`: substring containment. -/
def containsTag (s tag : String) : Bool :=
  (List.range (s.toList.length + 1)).any fun i =>
    (s.toList.drop i).take tag.toList.length == tag.toList

/-- The fields of the externally supplied `hpo_config` object that
`MLWorkflowMultiGPU` reads. -/
structure HpoConfig where
  model_type : String
  input_file_type : String
  target_files : List String
  dataset_columns : List String
  label_column : String
  cv_folds : Nat
  model_store_directory : String
  output_artifacts_directory : String
  deriving DecidableEq, Repr

/-- Symbolic result of a `dask_cudf.read_parquet` / `dask_cudf.read_csv`
call, recording exactly the arguments the source passes. -/
inductive Dataset where
  | parquet (files columns : List String)
  | csv (files names : List String) (header : Nat)
  deriving DecidableEq, Repr

/-- Opaque handle to one of the two trained-model forms produced by `fit`. -/
inductive TrainedModel where
  | booster
  | randomForest
  deriving DecidableEq, Repr

/-- A model-file disk write performed by `save_best_model`
(the path includes the family-specific suffix). -/
inductive WriteEvent where
  | xgb (path : String)
  | rf (path : String)
  deriving DecidableEq, Repr

/-- The mutable instance state of `MLWorkflowMultiGPU`.  Cluster and client
handles are modelled as `Option Nat`: `some g` is a live handle of
provisioning generation `g`, `none` a closed handle; `next_gen` is the
next unused generation number, so each provisioning is fresh. -/
structure WFState where
  hpo_config : HpoConfig
  dataset_cache : Option Dataset
  cv_fold_scores : List ℚ
  best_score : ℚ
  n_workers : Nat
  cluster : Option Nat
  client : Option Nat
  next_gen : Nat
  deriving DecidableEq, Repr

/-- The worker count chosen by `cluster_initialize`:
`n_workers = getDeviceCount()`, capped at `len(target_files)` when
`'XGBoost' in model_type`. -/
def computeWorkers (cfg : HpoConfig) (deviceCount : Nat) : Nat :=
  if containsTag cfg.model_type "XGBoost" then
    min cfg.target_files.length deviceCount
  else
    deviceCount

/-- Method `cluster_initialize`: computes the worker count and provisions a fresh
`LocalCUDACluster` plus `Client` pair.  `deviceCount` is the oracle for
`cupy.cuda.runtime.getDeviceCount()`. -/
def cluster_initialize (s : WFState) (deviceCount : Nat) : WFState :=
  { s with
    n_workers := computeWorkers s.hpo_config deviceCount,
    cluster := some s.next_gen,
    client := some s.next_gen,
    next_gen := s.next_gen + 1 }

/-- Method `__init__`: stores the config, empties the dataset cache and score log,
sets `best_score = -1`, and calls `cluster_initialize`. -/
def mlInit (cfg : HpoConfig) (deviceCount : Nat) : WFState :=
  cluster_initialize
    { hpo_config := cfg
      dataset_cache := none
      cv_fold_scores := []
      best_score := -1
      n_workers := 0
      cluster := none
      client := none
      next_gen := 0 } deviceCount

/-- Method `ingest_data`: returns the cached dataset when present, otherwise reads
per the configured file type and caches the result.  The `Bool` in the
result records whether a file read occurred.  When neither format tag
matches, the trailing `print(len(dataset))` raises UnboundLocalError. -/
def ingest_data (s : WFState) : Except PyErr (Dataset × WFState × Bool) :=
  match s.dataset_cache with
  | some d => .ok (d, s, false)
  | none =>
    if containsTag s.hpo_config.input_file_type "Parquet" then
      let d := Dataset.parquet s.hpo_config.target_files s.hpo_config.dataset_columns
      .ok (d, { s with dataset_cache := some d }, true)
    else if containsTag s.hpo_config.input_file_type "CSV" then
      let d := Dataset.csv s.hpo_config.target_files s.hpo_config.dataset_columns 0
      .ok (d, { s with dataset_cache := some d }, true)
    else
      .error .unboundLocal

/-- Method `fit`: branches on the model-family tag; the actual training is done by
the external libraries, so the result is the symbolic model handle.  When
neither tag matches, `return trained_model` raises UnboundLocalError. -/
def fit (s : WFState) : Except PyErr TrainedModel :=
  if containsTag s.hpo_config.model_type "XGBoost" then
    .ok .booster
  else if containsTag s.hpo_config.model_type "RandomForest" then
    .ok .randomForest
  else
    .error .unboundLocal

/-- Method `predict`: the list `raw` is the oracle for the external inference result.  The
XGBoost branch binarizes it via `(predictions > threshold) * 1.0`; the
RandomForest branch returns it as collected; an unmatched family raises
UnboundLocalError at `return predictions`.  The source gives `threshold`
the default value `0.5`. -/
def predict (s : WFState) (raw : List ℚ) (threshold : ℚ) : Except PyErr (List ℚ) :=
  if containsTag s.hpo_config.model_type "XGBoost" then
    .ok (raw.map fun v => if threshold < v then 1 else 0)
  else if containsTag s.hpo_config.model_type "RandomForest" then
    .ok raw
  else
    .error .unboundLocal

/-- Method `score`: the value `scoreVal` is the oracle for the external
`accuracy_score(...)`; the method appends it to `cv_fold_scores`
(`self.cv_fold_scores += [score]`) and returns it. -/
def score (s : WFState) (scoreVal : ℚ) : ℚ × WFState :=
  (scoreVal, { s with cv_fold_scores := s.cv_fold_scores ++ [scoreVal] })

/-- Method `save_best_model`: when `score > best_score`, updates `best_score` and
writes the model under a family-specific filename; otherwise does
nothing.  The returned `Option WriteEvent` records the disk write, if
any; when neither family tag matches, the branch falls through and no
file is written (and no error is raised). -/
def save_best_model (s : WFState) (scoreVal : ℚ) (filename : String) :
    WFState × Option WriteEvent :=
  if s.best_score < scoreVal then
    let s' := { s with best_score := scoreVal }
    let output_filename := s.hpo_config.model_store_directory ++ "/" ++ filename
    if containsTag s.hpo_config.model_type "XGBoost" then
      (s', some (.xgb (output_filename ++ "_mgpu_xgb")))
    else if containsTag s.hpo_config.model_type "RandomForest" then
      (s', some (.rf (output_filename ++ "_mgpu_rf")))
    else
      (s', none)
  else
    (s, none)

/-- Closing both handles (`await self.client.close(); await self.cluster.close()`). -/
def closeHandles (s : WFState) : WFState :=
  { s with cluster := none, client := none }

/-- Method `cleanup(i_fold)`: on the last fold (`i_fold == cv_folds - 1`) closes
client and cluster; on an earlier fold closes both and reprovisions via
`cluster_initialize`.  `deviceCount` is the oracle for the device count
re-queried at reprovisioning time. -/
def cleanup (s : WFState) (i_fold : Int) (deviceCount : Nat) : WFState :=
  if i_fold = (s.hpo_config.cv_folds : Int) - 1 then
    closeHandles s
  else if i_fold < (s.hpo_config.cv_folds : Int) - 1 then
    cluster_initialize (closeHandles s) deviceCount
  else
    s

/-- Embedding of Python division, which raises ZeroDivisionError on a zero
denominator. -/
def pyDiv (a b : ℚ) : Except PyErr ℚ :=
  if b = 0 then .error .zeroDivision else .ok (a / b)

/-- Method `emit_final_score`: computes
`final_score = sum(cv_fold_scores) / len(cv_fold_scores)` with no guard
and prints it; the computed value is the emitted result. -/
def emit_final_score (s : WFState) : Except PyErr ℚ :=
  pyDiv s.cv_fold_scores.sum (s.cv_fold_scores.length : ℚ)

/-- The per-fold score stage iterated over a trial: each fold's external
accuracy value (one entry of `vals`) is passed through `score`. -/
def runFolds (s : WFState) (vals : List ℚ) : WFState :=
  vals.foldl (fun st v => (score st v).2) s

/-- A sequence of `save_best_model` calls, one per fold, each passing that
fold's score and model.  `disk` tracks the score of the model currently
persisted on disk (`none` when no model file has been written yet); the
returned `List Bool` records, per call, whether a disk write occurred. -/
def runSaves : WFState → Option ℚ → List ℚ → WFState × Option ℚ × List Bool
  | s, disk, [] => (s, disk, [])
  | s, disk, v :: rest =>
    let step := save_best_model s v "saved_model"
    let disk' := match step.2 with
      | some _ => some v
      | none => disk
    let r := runSaves step.1 disk' rest
    (r.1, r.2.1, step.2.isSome :: r.2.2)

/-- Iterated ingestion: `n` successive calls to `ingest_data`, threading the state and counting
how many of them performed a file read. -/
def ingestN : Nat → WFState → Except PyErr (WFState × Nat)
  | 0, s => .ok (s, 0)
  | n + 1, s =>
    match ingest_data s with
    | .error e => .error e
    | .ok (_, s', r) =>
      match ingestN n s' with
      | .error e => .error e
      | .ok (s'', k) => .ok (s'', (if r then 1 else 0) + k)

/-- Specification-side characterization of the write pattern of a
`save_best_model` sequence: starting from running best `b`, a write
occurs at a call exactly when its score strictly exceeds the running
best at that point. -/
def recordFlags : ℚ → List ℚ → List Bool
  | _, [] => []
  | b, v :: rest => decide (b < v) :: recordFlags (max b v) rest

/-- Running maximum of a list of scores on top of an initial best `b`. -/
def maxScore : ℚ → List ℚ → ℚ
  | b, [] => b
  | b, v :: rest => maxScore (max b v) rest

/-- Example configuration with the XGBoost family tag and Parquet input,
used by the concrete witnesses. -/
def cfgXgb : HpoConfig :=
  { model_type := "MultiGPU XGBoost"
    input_file_type := "Parquet"
    target_files := ["part0.parquet", "part1.parquet"]
    dataset_columns := ["a", "b", "label"]
    label_column := "label"
    cv_folds := 3
    model_store_directory := "store"
    output_artifacts_directory := "out" }

/-- Example configuration whose model-family tag and file-format tag match
neither supported alternative. -/
def cfgBad : HpoConfig :=
  { model_type := "LinearSVC"
    input_file_type := "JSON"
    target_files := ["data.json"]
    dataset_columns := ["a", "b", "label"]
    label_column := "label"
    cv_folds := 2
    model_store_directory := "store"
    output_artifacts_directory := "out" }

/-- Example configuration whose model-family tag matches neither supported
family while the file format is the supported CSV one. -/
def cfgMixed : HpoConfig :=
  { model_type := "LinearSVC"
    input_file_type := "CSV"
    target_files := ["data.csv"]
    dataset_columns := ["a", "b", "label"]
    label_column := "label"
    cv_folds := 2
    model_store_directory := "store"
    output_artifacts_directory := "out" }

/-- The spec's example fold-score sequence 0.70, 0.65, 0.90, 0.88. -/
def scoresEx : List ℚ := [mkRat 70 100, mkRat 65 100, mkRat 90 100, mkRat 88 100]

/-- The dataset read from the files configured in `cfgXgb`. -/
def dsEx : Dataset := Dataset.parquet cfgXgb.target_files cfgXgb.dataset_columns

/-- A trial state under `cfgXgb` whose dataset cache is already populated. -/
def sCachedEx : WFState := { mlInit cfgXgb 2 with dataset_cache := some dsEx }

/-- The default value of the `threshold` parameter of `predict` (0.5). -/
def defaultThreshold : ℚ := mkRat 1 2

lemma mlInit_hpo_config (cfg : HpoConfig) (A : Nat) : (mlInit cfg A).hpo_config = cfg := rfl

lemma mlInit_best_score (cfg : HpoConfig) (A : Nat) : (mlInit cfg A).best_score = -1 := rfl

lemma mlInit_cv_fold_scores (cfg : HpoConfig) (A : Nat) : (mlInit cfg A).cv_fold_scores = [] := rfl

lemma mlInit_dataset_cache (cfg : HpoConfig) (A : Nat) : (mlInit cfg A).dataset_cache = none := rfl

/-- C3.  For every accelerator count `A` and input-file count `K`,
`cluster_initialize` provisions `min A K` workers when the model-family
string contains the XGBoost tag, and `A` workers otherwise. -/
theorem cluster_worker_capping (s : WFState) (A : Nat) :
    ( cluster_initialize s A).n_workers =
      if containsTag s.hpo_config.model_type "XGBoost" then
        min A s.hpo_config.target_files.length
      else
        A := by
  show computeWorkers s.hpo_config A = _
  unfold computeWorkers
  split
  · rw [Nat.min_comm]
  · rfl

/-- C10.  `emit_final_score` divides the sum of the logged fold scores by
the length of the score log with no guard: on an empty log it raises
ZeroDivisionError, and on a nonempty log it returns the sum divided by
the length. -/
theorem emit_final_score_division (s : WFState) :
    (s.cv_fold_scores = [] → emit_final_score s = .error .zeroDivision) ∧
    (s.cv_fold_scores ≠ [] →
      emit_final_score s =
        .ok (s.cv_fold_scores.sum / (s.cv_fold_scores.length : ℚ))) := by
  constructor
  · intro h
    unfold emit_final_score pyDiv
    rw [h]
    simp
  · intro h
    unfold emit_final_score pyDiv
    rw [if_neg]
    intro hc
    have hlen : s.cv_fold_scores.length = 0 := by exact_mod_cast hc
    exact h (List.length_eq_zero.mp hlen)

/-- Witness for C10 at a concrete empty-log state and a concrete one-fold
state. -/
theorem emit_final_score_division_witness :
    emit_final_score (mlInit cfgXgb 2) = .error .zeroDivision ∧
    emit_final_score { mlInit cfgXgb 2 with cv_fold_scores := [mkRat 81 100] } =
      .ok ([mkRat 81 100].sum /
        (([mkRat 81 100] : List ℚ).length : ℚ)) :=
  ⟨(emit_final_score_division (mlInit cfgXgb 2)).1 rfl,
   (emit_final_score_division { mlInit cfgXgb 2 with cv_fold_scores := [mkRat 81 100] }).2
     (by decide)⟩

/-- C4.  For every configuration, construction completes with a live
cluster (no configuration-time validation); whenever the model-family
tag matches neither supported family, `fit` skips both branches and
raises UnboundLocalError at the first use of the never-assigned local;
and whenever the file-format tag matches neither supported format,
`ingest_data` does likewise — each independently of the other tag. -/
theorem unsupported_config_unbound_local (cfg : HpoConfig) (A : Nat) :
    (mlInit cfg A).cluster.isSome = true ∧
    (containsTag cfg.model_type "XGBoost" = false →
      containsTag cfg.model_type "RandomForest" = false →
      fit (mlInit cfg A) = .error .unboundLocal) ∧
    (containsTag cfg.input_file_type "Parquet" = false →
      containsTag cfg.input_file_type "CSV" = false →
      ingest_data (mlInit cfg A) = .error .unboundLocal) := by
  refine ⟨rfl, fun hfam1 hfam2 => ?_, fun hfmt1 hfmt2 => ?_⟩
  · unfold fit
    rw [mlInit_hpo_config, hfam1, hfam2]
    simp
  · unfold ingest_data
    rw [mlInit_dataset_cache, mlInit_hpo_config, hfmt1, hfmt2]
    simp

/-- Witness for C4: under `cfgMixed` (unsupported family, supported CSV
format) construction completes and `fit` raises the unbound-local
error; under `cfgBad` (unsupported format) `ingest_data` raises it. -/
theorem unsupported_config_unbound_local_witness :
    (mlInit cfgMixed 1).cluster.isSome = true ∧
    fit (mlInit cfgMixed 1) = .error .unboundLocal ∧
    ingest_data (mlInit cfgBad 1) = .error .unboundLocal :=
  ⟨(unsupported_config_unbound_local cfgMixed 1).1,
   (unsupported_config_unbound_local cfgMixed 1).2.1 (by decide) (by decide),
   (unsupported_config_unbound_local cfgBad 1).2.2 (by decide) (by decide)⟩

/-- C6.  For the XGBoost family, `predict` maps every raw prediction value
strictly above the threshold to 1 and every other value to 0; at the
default threshold 0.5 the raw vector 0.2, 0.5, 0.51, 0.9 yields
0, 0, 1, 1. -/
theorem predict_threshold_binarize (cfg : HpoConfig) (A : Nat)
    (raw : List ℚ) (t : ℚ)
    (hx : containsTag cfg.model_type "XGBoost" = true) :
    predict (mlInit cfg A) raw t =
      .ok (raw.map fun v => if t < v then 1 else 0) ∧
    predict (mlInit cfg A)
      [mkRat 2 10, mkRat 5 10, mkRat 51 100, mkRat 9 10] defaultThreshold =
      .ok [0, 0, 1, 1] := by
  have hgen : ∀ (l : List ℚ) (th : ℚ),
      predict (mlInit cfg A) l th = .ok (l.map fun v => if th < v then 1 else 0) := by
    intro l th
    unfold predict
    rw [mlInit_hpo_config, hx]
    simp
  refine ⟨hgen raw t, (hgen _ _).trans (congrArg Except.ok (by decide))⟩

/-- Witness for C6 at the concrete configuration `cfgXgb`, a concrete raw
vector and a concrete threshold. -/
theorem predict_threshold_binarize_witness :
    predict (mlInit cfgXgb 2) [mkRat 3 10, mkRat 7 10] (mkRat 1 2) =
      .ok ([mkRat 3 10, mkRat 7 10].map fun v => if mkRat 1 2 < v then 1 else 0) ∧
    predict (mlInit cfgXgb 2)
      [mkRat 2 10, mkRat 5 10, mkRat 51 100, mkRat 9 10] defaultThreshold =
      .ok [0, 0, 1, 1] :=
  predict_threshold_binarize cfgXgb 2 [mkRat 3 10, mkRat 7 10] (mkRat 1 2) (by decide)

/-- C7.  With fold count `F`, `cleanup` on the last fold (`i = F - 1`)
closes the cluster and client and does not reprovision; on any earlier
fold (`i < F - 1`) it closes both and immediately reprovisions one fresh
live cluster/client pair (the next unused generation). -/
theorem cleanup_fold_handles (s : WFState) (A : Nat) (i : Int) :
    (i = (s.hpo_config.cv_folds : Int) - 1 →
      (cleanup s i A).cluster = none ∧ (cleanup s i A).client = none) ∧
    (i < (s.hpo_config.cv_folds : Int) - 1 →
      (cleanup s i A).cluster = some s.next_gen ∧
      (cleanup s i A).client = some s.next_gen ∧
      (cleanup s i A).next_gen = s.next_gen + 1) := by
  constructor
  · intro h
    unfold cleanup
    rw [if_pos h]
    exact ⟨rfl, rfl⟩
  · intro h
    unfold cleanup
    rw [if_neg (ne_of_lt h), if_pos h]
    exact ⟨rfl, rfl, rfl⟩

/-- Witness for C7 under `cfgXgb` (three folds): cleanup at fold index 2
closes both handles, cleanup at fold index 0 leaves the freshly
provisioned pair of generation 1. -/
theorem cleanup_fold_handles_witness :
    ((cleanup (mlInit cfgXgb 2) 2 2).cluster = none ∧
      (cleanup (mlInit cfgXgb 2) 2 2).client = none) ∧
    ((cleanup (mlInit cfgXgb 2) 0 2).cluster = some (mlInit cfgXgb 2).next_gen ∧
      (cleanup (mlInit cfgXgb 2) 0 2).client = some (mlInit cfgXgb 2).next_gen ∧
      (cleanup (mlInit cfgXgb 2) 0 2).next_gen = (mlInit cfgXgb 2).next_gen + 1) :=
  ⟨(cleanup_fold_handles (mlInit cfgXgb 2) 2 2).1 (by decide),
   (cleanup_fold_handles (mlInit cfgXgb 2) 2 0).2 (by decide)⟩

lemma emit_final_score_ok (s : WFState) (h : s.cv_fold_scores ≠ []) :
    emit_final_score s =
      .ok (s.cv_fold_scores.sum / (s.cv_fold_scores.length : ℚ)) := by
  unfold emit_final_score pyDiv
  rw [if_neg]
  intro hc
  have hlen : s.cv_fold_scores.length = 0 := by exact_mod_cast hc
  exact h (List.length_eq_zero.mp hlen)

lemma runFolds_cv_fold_scores (vals : List ℚ) : ∀ s : WFState,
    (runFolds s vals).cv_fold_scores = s.cv_fold_scores ++ vals := by
  induction vals with
  | nil =>
    intro s
    simp [runFolds]
  | cons v rest ih =>
    intro s
    show (runFolds (score s v).2 rest).cv_fold_scores = _
    rw [ih]
    simp [score]

/-- C1.  A trial whose `F = cv_folds` folds each complete the score stage
logs exactly the `F` fold scores in order, and `emit_final_score` then
emits their sum divided by `F`, i.e. their arithmetic mean. -/
theorem score_log_and_final_mean (cfg : HpoConfig) (A : Nat) (vals : List ℚ)
    (hlen : vals.length = cfg.cv_folds) (hF : 1 ≤ cfg.cv_folds) :
    (runFolds (mlInit cfg A) vals).cv_fold_scores = vals ∧
    emit_final_score (runFolds (mlInit cfg A) vals) =
      .ok (vals.sum / (cfg.cv_folds : ℚ)) := by
  have hsc : (runFolds (mlInit cfg A) vals).cv_fold_scores = vals := by
    rw [runFolds_cv_fold_scores, mlInit_cv_fold_scores]
    simp
  refine ⟨hsc, ?_⟩
  have hne : vals ≠ [] := by
    intro h
    rw [h] at hlen
    simp at hlen
    omega
  have h1 : (runFolds (mlInit cfg A) vals).cv_fold_scores ≠ [] := by
    rw [hsc]
    exact hne
  rw [emit_final_score_ok _ h1, hsc, hlen]

/-- Witness for C1 at the spec's example scores 0.81, 0.83, 0.80 under the
three-fold configuration `cfgXgb`. -/
theorem score_log_and_final_mean_witness :
    (runFolds (mlInit cfgXgb 2)
        [mkRat 81 100, mkRat 83 100, mkRat 80 100]).cv_fold_scores =
      [mkRat 81 100, mkRat 83 100, mkRat 80 100] ∧
    emit_final_score (runFolds (mlInit cfgXgb 2)
        [mkRat 81 100, mkRat 83 100, mkRat 80 100]) =
      .ok ([mkRat 81 100, mkRat 83 100, mkRat 80 100].sum / (cfgXgb.cv_folds : ℚ)) :=
  score_log_and_final_mean cfgXgb 2 [mkRat 81 100, mkRat 83 100, mkRat 80 100]
    (by decide) (by decide)

lemma ingest_data_cached (s : WFState) (d : Dataset) (h : s.dataset_cache = some d) :
    ingest_data s = .ok (d, s, false) := by
  unfold ingest_data
  rw [h]

lemma ingest_data_sets_cache (s : WFState) (d : Dataset) (s₂ : WFState) (r : Bool)
    (h : ingest_data s = .ok (d, s₂, r)) : s₂.dataset_cache = some d := by
  unfold ingest_data at h
  split at h
  · rename_i d₀ heq
    simp only [Except.ok.injEq, Prod.mk.injEq] at h
    obtain ⟨h1, h2, -⟩ := h
    rw [← h2, heq, h1]
  · rename_i heq
    split at h
    · simp only [Except.ok.injEq, Prod.mk.injEq] at h
      obtain ⟨h1, h2, -⟩ := h
      rw [← h2, ← h1]
    · split at h
      · simp only [Except.ok.injEq, Prod.mk.injEq] at h
        obtain ⟨h1, h2, -⟩ := h
        rw [← h2, ← h1]
      · cases h

lemma ingestN_cached (n : Nat) : ∀ (s : WFState) (d : Dataset),
    s.dataset_cache = some d → ingestN n s = .ok (s, 0) := by
  induction n with
  | zero =>
    intro s d _
    rfl
  | succ k ih =>
    intro s d h
    unfold ingestN
    simp only [ingest_data_cached s d h]
    simp only [ih s d h]
    rfl

lemma ingestN_le_one (n : Nat) (s : WFState) (s₂ : WFState) (k : Nat)
    (h : ingestN n s = .ok (s₂, k)) : k ≤ 1 := by
  cases n with
  | zero =>
    injection h with h1
    cases h1
    exact Nat.zero_le 1
  | succ m =>
    unfold ingestN at h
    revert h
    cases hi : ingest_data s with
    | error e =>
      intro h
      cases h
    | ok t =>
      obtain ⟨d, s₁, r⟩ := t
      intro h
      have hc := ingest_data_sets_cache s d s₁ r hi
      simp only [ingestN_cached m s₁ d hc] at h
      simp only [Except.ok.injEq, Prod.mk.injEq] at h
      obtain ⟨-, h3⟩ := h
      rw [← h3]
      cases r <;> simp

/-- C5.  Dataset ingestion is idempotent within a trial: with a populated
cache, `ingest_data` returns the identical cached object, reads no file
and changes no state; any successful call leaves the cache holding the
returned object, so every subsequent call is such a cache hit; and any
number of successive calls performs at most one file read in total. -/
theorem ingest_idempotent_cache :
    (∀ (s : WFState) (d : Dataset), s.dataset_cache = some d →
      ingest_data s = .ok (d, s, false)) ∧
    (∀ (s : WFState) (d : Dataset) (s₂ : WFState) (r : Bool),
      ingest_data s = .ok (d, s₂, r) →
      s₂.dataset_cache = some d ∧ ingest_data s₂ = .ok (d, s₂, false)) ∧
    (∀ (n : Nat) (s : WFState) (s₂ : WFState) (k : Nat),
      ingestN n s = .ok (s₂, k) → k ≤ 1) := by
  refine ⟨ingest_data_cached, fun s d s₂ r h => ?_, fun n s s₂ k h => ingestN_le_one n s s₂ k h⟩
  have hc := ingest_data_sets_cache s d s₂ r h
  exact ⟨hc, ingest_data_cached s₂ d hc⟩

/-- Witness for C5: a concrete cached state is returned unchanged with no
read, and five successive calls starting from a fresh trial state under
`cfgXgb` perform exactly one read, which is at most one. -/
theorem ingest_idempotent_cache_witness :
    ingest_data sCachedEx = .ok (dsEx, sCachedEx, false) ∧ (1 : Nat) ≤ 1 :=
  ⟨ingest_idempotent_cache.1 sCachedEx dsEx rfl,
   ingest_idempotent_cache.2.2 5 (mlInit cfgXgb 2) sCachedEx 1 (by decide)⟩

lemma save_best_model_noop (s : WFState) (v : ℚ) (f : String) (h : ¬ s.best_score < v) :
    save_best_model s v f = (s, none) := by
  unfold save_best_model
  rw [if_neg h]

lemma save_best_model_fst (s : WFState) (v : ℚ) (f : String) :
    (save_best_model s v f).1 =
      if s.best_score < v then { s with best_score := v } else s := by
  by_cases h : s.best_score < v
  · rw [if_pos h]
    unfold save_best_model
    rw [if_pos h]
    dsimp only
    split
    · rfl
    · split <;> rfl
  · rw [if_neg h, save_best_model_noop s v f h]

lemma save_best_model_write (s : WFState) (v : ℚ) (f : String)
    (hfam : containsTag s.hpo_config.model_type "XGBoost" = true ∨
      containsTag s.hpo_config.model_type "RandomForest" = true)
    (h : s.best_score < v) :
    (save_best_model s v f).2.isSome = true := by
  unfold save_best_model
  rw [if_pos h]
  dsimp only
  rcases hx : containsTag s.hpo_config.model_type "XGBoost" with - | -
  · rcases hfam with h1 | h2
    · rw [hx] at h1
      cases h1
    · simp [hx, h2]
  · simp [hx]

lemma maxScore_no_gt (l : List ℚ) : ∀ b : ℚ,
    l.any (fun u => decide (b < u)) = false → maxScore b l = b := by
  induction l with
  | nil =>
    intro b _
    rfl
  | cons x r ih =>
    intro b h
    rw [List.any_cons] at h
    obtain ⟨h1, h2⟩ := Bool.or_eq_false_iff.mp h
    have hbx : max b x = b := max_eq_left (not_lt.mp (of_decide_eq_false h1))
    show maxScore (max b x) r = b
    rw [hbx]
    exact ih b h2

lemma maxScore_init_le (l : List ℚ) : ∀ b : ℚ, b ≤ maxScore b l := by
  induction l with
  | nil =>
    intro b
    exact le_refl b
  | cons x r ih =>
    intro b
    exact le_trans (le_max_left b x) (ih (max b x))

lemma maxScore_mem_le (l : List ℚ) : ∀ (b u : ℚ), u ∈ l → u ≤ maxScore b l := by
  induction l with
  | nil =>
    intro b u h
    cases h
  | cons x r ih =>
    intro b u h
    rcases List.mem_cons.mp h with rfl | hr
    · exact le_trans (le_max_right b u) (maxScore_init_le r (max b u))
    · exact ih (max b x) u hr

lemma maxScore_eq_or_mem (l : List ℚ) : ∀ b : ℚ, maxScore b l = b ∨ maxScore b l ∈ l := by
  induction l with
  | nil =>
    intro b
    exact Or.inl rfl
  | cons x r ih =>
    intro b
    have hcons : maxScore b (x :: r) = maxScore (max b x) r := rfl
    rcases ih (max b x) with h | h
    · rcases max_cases b x with ⟨h1, -⟩ | ⟨h1, -⟩
      · exact Or.inl (by rw [hcons, h, h1])
      · refine Or.inr ?_
        rw [hcons, h, h1]
        exact List.mem_cons_self x r
    · exact Or.inr (List.mem_cons_of_mem x (hcons ▸ h))

lemma runSaves_invariant (scores : List ℚ) :
    ∀ (s : WFState) (disk : Option ℚ),
      (containsTag s.hpo_config.model_type "XGBoost" = true ∨
        containsTag s.hpo_config.model_type "RandomForest" = true) →
      (runSaves s disk scores).2.2 = recordFlags s.best_score scores ∧
      (runSaves s disk scores).1.best_score = maxScore s.best_score scores ∧
      (runSaves s disk scores).1.hpo_config = s.hpo_config ∧
      (runSaves s disk scores).2.1 =
        (if scores.any (fun u => decide (s.best_score < u)) then
          some (maxScore s.best_score scores)
        else disk) := by
  induction scores with
  | nil =>
    intro s disk hfam
    exact ⟨rfl, rfl, rfl, by simp [runSaves]⟩
  | cons v rest ih =>
    intro s disk hfam
    have hrec : recordFlags s.best_score (v :: rest) =
        decide (s.best_score < v) :: recordFlags (max s.best_score v) rest := rfl
    have hms : maxScore s.best_score (v :: rest) = maxScore (max s.best_score v) rest := rfl
    by_cases hlt : s.best_score < v
    · have hfst : (save_best_model s v "saved_model").1 = { s with best_score := v } := by
        rw [save_best_model_fst, if_pos hlt]
      have hw : (save_best_model s v "saved_model").2.isSome = true :=
        save_best_model_write s v "saved_model" hfam hlt
      obtain ⟨w, hw2⟩ := Option.isSome_iff_exists.mp hw
      have hdisk : (match (save_best_model s v "saved_model").2 with
          | some _ => some v
          | none => disk) = some v := by rw [hw2]
      have hfam2 :
          containsTag ({ s with best_score := v } : WFState).hpo_config.model_type "XGBoost" = true ∨
          containsTag ({ s with best_score := v } : WFState).hpo_config.model_type "RandomForest" = true :=
        hfam
      have H := ih { s with best_score := v } (some v) hfam2
      have hmax : max s.best_score v = v := max_eq_right (le_of_lt hlt)
      refine ⟨?_, ?_, ?_, ?_⟩
      · show (save_best_model s v "saved_model").2.isSome ::
            (runSaves (save_best_model s v "saved_model").1
              (match (save_best_model s v "saved_model").2 with
                | some _ => some v
                | none => disk) rest).2.2 =
            recordFlags s.best_score (v :: rest)
        rw [hrec, hw, hfst, hdisk, decide_eq_true hlt, hmax, H.1]
      · show (runSaves (save_best_model s v "saved_model").1
            (match (save_best_model s v "saved_model").2 with
              | some _ => some v
              | none => disk) rest).1.best_score =
            maxScore s.best_score (v :: rest)
        rw [hms, hfst, hdisk, hmax, H.2.1]
      · show (runSaves (save_best_model s v "saved_model").1
            (match (save_best_model s v "saved_model").2 with
              | some _ => some v
              | none => disk) rest).1.hpo_config = s.hpo_config
        rw [hfst, hdisk, H.2.2.1]
      · show (runSaves (save_best_model s v "saved_model").1
            (match (save_best_model s v "saved_model").2 with
              | some _ => some v
              | none => disk) rest).2.1 =
            if (v :: rest).any (fun u => decide (s.best_score < u)) then
              some (maxScore s.best_score (v :: rest))
            else disk
        have hcond : ((v :: rest).any fun u => decide (s.best_score < u)) = true := by
          rw [List.any_cons, decide_eq_true hlt]
          exact Bool.true_or _
        rw [if_pos hcond, hms, hmax, hfst, hdisk, H.2.2.2]
        rw [show ({ s with best_score := v } : WFState).best_score = v from rfl]
        rcases hany : rest.any (fun u => decide (v < u)) with - | -
        · rw [if_neg Bool.false_ne_true, maxScore_no_gt rest v hany]
        · rw [if_pos rfl]
    · have hstep : save_best_model s v "saved_model" = (s, none) :=
        save_best_model_noop s v "saved_model" hlt
      have H := ih s disk hfam
      have hmax : max s.best_score v = s.best_score := max_eq_left (not_lt.mp hlt)
      refine ⟨?_, ?_, ?_, ?_⟩
      · show (save_best_model s v "saved_model").2.isSome ::
            (runSaves (save_best_model s v "saved_model").1
              (match (save_best_model s v "saved_model").2 with
                | some _ => some v
                | none => disk) rest).2.2 =
            recordFlags s.best_score (v :: rest)
        rw [hstep]
        dsimp only
        rw [hrec, decide_eq_false hlt, hmax, H.1]
        rfl
      · show (runSaves (save_best_model s v "saved_model").1
            (match (save_best_model s v "saved_model").2 with
              | some _ => some v
              | none => disk) rest).1.best_score =
            maxScore s.best_score (v :: rest)
        rw [hstep]
        dsimp only
        rw [hms, hmax, H.2.1]
      · show (runSaves (save_best_model s v "saved_model").1
            (match (save_best_model s v "saved_model").2 with
              | some _ => some v
              | none => disk) rest).1.hpo_config = s.hpo_config
        rw [hstep]
        dsimp only
        exact H.2.2.1
      · show (runSaves (save_best_model s v "saved_model").1
            (match (save_best_model s v "saved_model").2 with
              | some _ => some v
              | none => disk) rest).2.1 =
            if (v :: rest).any (fun u => decide (s.best_score < u)) then
              some (maxScore s.best_score (v :: rest))
            else disk
        rw [hstep]
        dsimp only
        rw [H.2.2.2, List.any_cons, decide_eq_false hlt, hms, hmax]
        simp only [Bool.false_or]

/-- C2.  Over any sequence of `save_best_model` calls in a trial with a
supported model family: a disk write occurs at a call exactly when its
score strictly exceeds the running best at that point; a call whose
score does not exceed the running best is a no-op on both state and
disk; and once any score has beaten the initial best, the model last
persisted on disk is one with the maximum score seen so far. -/
theorem save_best_monotonic (cfg : HpoConfig) (A : Nat) (scores : List ℚ)
    (hfam : containsTag cfg.model_type "XGBoost" = true ∨
      containsTag cfg.model_type "RandomForest" = true) :
    (runSaves (mlInit cfg A) none scores).2.2 = recordFlags (-1) scores ∧
    (∀ (s : WFState) (v : ℚ) (f : String), v ≤ s.best_score →
      save_best_model s v f = (s, none)) ∧
    ((∃ v ∈ scores, (-1 : ℚ) < v) →
      ∃ m, (runSaves (mlInit cfg A) none scores).2.1 = some m ∧
        m ∈ scores ∧ ∀ u ∈ scores, u ≤ m) := by
  have hfam2 : containsTag (mlInit cfg A).hpo_config.model_type "XGBoost" = true ∨
      containsTag (mlInit cfg A).hpo_config.model_type "RandomForest" = true := by
    rw [mlInit_hpo_config]
    exact hfam
  have H := runSaves_invariant scores (mlInit cfg A) none hfam2
  rw [mlInit_best_score] at H
  refine ⟨H.1, fun s v f h => save_best_model_noop s v f (not_lt.mpr h), fun hex => ?_⟩
  have hany : (scores.any fun u => decide ((-1 : ℚ) < u)) = true := by
    obtain ⟨v, hv, hlt⟩ := hex
    exact List.any_eq_true.mpr ⟨v, hv, decide_eq_true hlt⟩
  refine ⟨maxScore (-1) scores, ?_, ?_, fun u hu => maxScore_mem_le scores (-1) u hu⟩
  · rw [H.2.2.2, if_pos hany]
  · rcases maxScore_eq_or_mem scores (-1) with h | h
    · exfalso
      obtain ⟨v, hv, hlt⟩ := hex
      have hle := maxScore_mem_le scores (-1) v hv
      rw [h] at hle
      exact absurd (lt_of_lt_of_le hlt hle) (lt_irrefl (-1 : ℚ))
    · exact h

/-- Witness for C2 at the spec's example scores 0.70, 0.65, 0.90, 0.88:
writes occur exactly after the first and third calls, and the persisted
model is the one scoring 0.90. -/
theorem save_best_monotonic_witness :
    (runSaves (mlInit cfgXgb 1) none scoresEx).2.2 = [true, false, true, false] ∧
    (runSaves (mlInit cfgXgb 1) none scoresEx).2.1 = some (mkRat 90 100) := by
  have H := save_best_monotonic cfgXgb 1 scoresEx (Or.inl (by decide))
  refine ⟨H.1.trans (by decide), ?_⟩
  obtain ⟨m, hm, hmem, hub⟩ := H.2.2 ⟨mkRat 70 100, by decide, by decide⟩
  have h90 := hub (mkRat 90 100) (by decide)
  rw [hm]
  simp only [scoresEx, List.mem_cons, List.not_mem_nil, or_false] at hmem
  rcases hmem with rfl | rfl | rfl | rfl
  · exact absurd h90 (by decide)
  · exact absurd h90 (by decide)
  · rfl
  · exact absurd h90 (by decide)

/-- C8.  The running best score is initialized to -1 at construction, so
the first `save_best_model` call of a trial with any nonnegative score
updates the running best to that score and writes a model file (for a
supported model family). -/
theorem best_score_initialized_first_save (cfg : HpoConfig) (A : Nat) (v : ℚ) (f : String)
    (hv : 0 ≤ v)
    (hfam : containsTag cfg.model_type "XGBoost" = true ∨
      containsTag cfg.model_type "RandomForest" = true) :
    (mlInit cfg A).best_score = -1 ∧
    (save_best_model (mlInit cfg A) v f).1.best_score = v ∧
    (save_best_model (mlInit cfg A) v f).2.isSome = true := by
  have hlt : (mlInit cfg A).best_score < v := by
    rw [mlInit_best_score]
    linarith
  have hfam2 : containsTag (mlInit cfg A).hpo_config.model_type "XGBoost" = true ∨
      containsTag (mlInit cfg A).hpo_config.model_type "RandomForest" = true := by
    rw [mlInit_hpo_config]
    exact hfam
  refine ⟨mlInit_best_score cfg A, ?_, save_best_model_write (mlInit cfg A) v f hfam2 hlt⟩
  rw [save_best_model_fst, if_pos hlt]

/-- Witness for C8 with the score 0 on a fresh trial under `cfgXgb`. -/
theorem best_score_initialized_first_save_witness :
    (mlInit cfgXgb 2).best_score = -1 ∧
    (save_best_model (mlInit cfgXgb 2) 0 "saved_model").1.best_score = 0 ∧
    (save_best_model (mlInit cfgXgb 2) 0 "saved_model").2.isSome = true :=
  best_score_initialized_first_save cfgXgb 2 0 "saved_model" le_rfl (Or.inl (by decide))

/-- C9.  When the model-family tag matches neither supported family, a
`save_best_model` call whose score strictly exceeds the running best
still updates the running best but writes no model file and raises no
error, so the running best and the model persisted on disk diverge. -/
theorem unsupported_family_best_diverges (s : WFState) (v : ℚ) (f : String)
    (hx : containsTag s.hpo_config.model_type "XGBoost" = false)
    (hr : containsTag s.hpo_config.model_type "RandomForest" = false)
    (hlt : s.best_score < v) :
    save_best_model s v f = ({ s with best_score := v }, none) := by
  unfold save_best_model
  rw [if_pos hlt]
  dsimp only
  rw [hx, hr]
  simp

/-- Witness for C9 at the unsupported configuration `cfgBad` with score 1
beating the initial best. -/
theorem unsupported_family_best_diverges_witness :
    save_best_model (mlInit cfgBad 1) 1 "saved_model" =
      ({ mlInit cfgBad 1 with best_score := 1 }, none) :=
  unsupported_family_best_diverges (mlInit cfgBad 1) 1 "saved_model"
    (by decide) (by decide) (by decide)
